import Mathlib

/-!
Verification of the project-management service: a shallow embedding of the
entities, the SQLite-backed repository and the application service, together
with proofs of the behavioural properties of the specification.

The store is modelled as the list of persisted rows, in insertion (rowid)
order.  Exceptions of the Python code become `Except`-style results paired
with the resulting store; a rolled-back transaction returns the original
store.  The unique constraint on `name` (and the primary key on `id`) of the
SQLAlchemy model is modelled by the integrity checks `create_violates` and
`update_violates`: the store signals an integrity violation exactly when a
commit would leave two rows sharing a name (or an id, for an insert).

The column default `created_at=datetime.now(UTC)` of the SQLAlchemy model is
evaluated once, when the class body is executed at module load, and the
resulting constant is then used for every insert.  It is therefore modelled
as the fixed constant `defaultCreatedAt` stamped on every created row.
-/

deriving instance DecidableEq for Except

namespace CleanArch

/-- The four lifecycle states of `ProjectState` in `entities/models/project.py`. -/
inductive ProjectState where
  | PLANNED
  | IN_PROGRESS
  | COMPLETED
  | CANCELLED
deriving DecidableEq, Repr

/-- `PROJECT_NAME_MIN_LENGTH` from `entities/constants/project.py`. -/
def PROJECT_NAME_MIN_LENGTH : Nat := 3

/-- `PROJECT_NAME_MAX_LENGTH` from `entities/constants/project.py`. -/
def PROJECT_NAME_MAX_LENGTH : Nat := 100

/-- `validate_project_name` from `entities/utils/project.py`:
`len(name) >= PROJECT_NAME_MIN_LENGTH and len(name) <= PROJECT_NAME_MAX_LENGTH`. -/
def validate_project_name (name : String) : Bool :=
  decide (PROJECT_NAME_MIN_LENGTH ≤ name.length) &&
    decide (name.length ≤ PROJECT_NAME_MAX_LENGTH)

/-- The `allowed_transitions` dict literal inside `is_valid_state_transition`
in `entities/utils/project.py`. -/
def allowed_transitions (current_state : ProjectState) : List ProjectState :=
  match current_state with
  | .PLANNED => [.IN_PROGRESS, .CANCELLED]
  | .IN_PROGRESS => [.COMPLETED, .CANCELLED]
  | .COMPLETED => [.IN_PROGRESS]
  | .CANCELLED => [.PLANNED]

/-- `is_valid_state_transition` from `entities/utils/project.py`:
`new_state in allowed_transitions.get(current_state, [])`. -/
def is_valid_state_transition (current_state new_state : ProjectState) : Bool :=
  (allowed_transitions current_state).contains new_state

/-- The `Project` entity of `entities/models/project.py`. -/
structure Project where
  id : String
  name : String
  description : Option String
  state : ProjectState
deriving DecidableEq, Repr

/-- One persisted row of the `projects` table
(`infrastructures/sqlite_db/models/project.py`). -/
structure ProjectRow where
  id : String
  name : String
  description : Option String
  state : ProjectState
  created_at : Nat
deriving DecidableEq, Repr

/-- The value of the scalar column default `datetime.now(UTC)`, which Python
evaluates once at class-definition time; every insert stamps this same
constant into `created_at`. -/
def defaultCreatedAt : Nat := 0

/-- The persisted state: the rows of the `projects` table in insertion
(rowid) order. -/
structure Store where
  rows : List ProjectRow
deriving DecidableEq, Repr

/-- The exceptions that can escape the repository and service layers:
the two domain errors of `entities/errors/project.py`, SQLAlchemy's raw
`IntegrityError` when it is re-raised untranslated, and Python's
`AssertionError` from the `assert` in `ProjectService.update_project`. -/
inductive AppError where
  | ProjectNotFoundError (project_id : String)
  | ProjectNameExistsError (project_name : String)
  | IntegrityError
  | AssertionError
deriving DecidableEq, Repr

/-- The `Project(...)` conversion the repository performs on each row. -/
def rowToEntity (r : ProjectRow) : Project :=
  ⟨r.id, r.name, r.description, r.state⟩

/-- A `session.commit()` of an INSERT raises `IntegrityError` exactly when
the committed row would collide with an existing row on the unique `name`
column or on the `id` primary key. -/
def create_violates (s : Store) (newId name : String) : Bool :=
  s.rows.any (fun r => r.name == name || r.id == newId)

/-- `SQLiteProjectRepository.create_project`: insert a new row, translating
an `IntegrityError` into `ProjectNameExistsError(name)` after rollback.
The fresh id produced by the model's `uuid4` default is passed as `newId`. -/
def SQLiteProjectRepository.create_project (s : Store) (name : String)
    (description : Option String) (state : ProjectState) (newId : String) :
    Except AppError Project × Store :=
  if create_violates s newId name then
    (.error (.ProjectNameExistsError name), s)
  else
    (.ok (rowToEntity ⟨newId, name, description, state, defaultCreatedAt⟩),
     ⟨s.rows ++ [⟨newId, name, description, state, defaultCreatedAt⟩]⟩)

/-- `SQLiteProjectRepository.get_project_by_id`: `scalar_one()` on the
`id`-filtered select, with `NoResultFound` turned into `None`. -/
def SQLiteProjectRepository.get_project_by_id (s : Store) (project_id : String) :
    Option Project :=
  (s.rows.find? (fun r => r.id == project_id)).map rowToEntity

/-- Stable insertion of a row into a list sorted by `created_at` descending:
a row moves ahead only of strictly older rows, so rows with equal
`created_at` keep their relative (insertion) order, matching the full-scan
sort the SQLite engine performs for `ORDER BY created_at DESC`. -/
def insertByCreatedDesc (r : ProjectRow) : List ProjectRow → List ProjectRow
  | [] => [r]
  | x :: xs =>
    if x.created_at < r.created_at then r :: x :: xs
    else x :: insertByCreatedDesc r xs

/-- `ORDER BY created_at DESC` as a stable descending sort. -/
def sortByCreatedDesc (rows : List ProjectRow) : List ProjectRow :=
  rows.foldl (fun acc r => insertByCreatedDesc r acc) []

/-- The optional `WHERE state = :state` filter. -/
def filterByState (rows : List ProjectRow) (state : Option ProjectState) :
    List ProjectRow :=
  match state with
  | none => rows
  | some st => rows.filter (fun r => r.state == st)

/-- `SQLiteProjectRepository.get_projects`: the select with optional state
filter, `ORDER BY created_at DESC`, `OFFSET skip` and `LIMIT limit`
(SQLAlchemy compiles the generative chain into this clause order regardless
of the order the methods were called in). -/
def SQLiteProjectRepository.get_projects (s : Store) (skip limit : Nat)
    (state : Option ProjectState) : List Project :=
  (((sortByCreatedDesc (filterByState s.rows state)).drop skip).take limit).map
    rowToEntity

/-- `session.delete` removes the single row `scalar_one()` found. -/
def eraseFirstRow (project_id : String) : List ProjectRow → List ProjectRow
  | [] => []
  | r :: rest =>
    if r.id == project_id then rest else r :: eraseFirstRow project_id rest

/-- `SQLiteProjectRepository.delete_project`: delete the row if found,
returning whether a row was removed (`NoResultFound` becomes `False`). -/
def SQLiteProjectRepository.delete_project (s : Store) (project_id : String) :
    Bool × Store :=
  match s.rows.find? (fun r => r.id == project_id) with
  | none => (false, s)
  | some _ => (true, ⟨eraseFirstRow project_id s.rows⟩)

/-- `SQLiteProjectRepository.count_projects`: `COUNT(*)` with the optional
state filter. -/
def SQLiteProjectRepository.count_projects (s : Store)
    (state : Option ProjectState) : Nat :=
  (filterByState s.rows state).length

/-- A commit of the UPDATE raises `IntegrityError` exactly when the updated
row's final name is also held by a different row. -/
def update_violates (s : Store) (project_id newName : String) : Bool :=
  s.rows.any (fun r => r.id != project_id && r.name == newName)

/-- `SQLiteProjectRepository.update_project`: find the row (`NoResultFound`
becomes `None`), overwrite exactly the fields whose argument `is not None`,
commit; on `IntegrityError`, roll back and raise `ProjectNameExistsError`
only `if name:` is truthy (not `None` and not the empty string), otherwise
re-raise the raw `IntegrityError`. -/
def SQLiteProjectRepository.update_project (s : Store) (project_id : String)
    (name : Option String) (description : Option String)
    (state : Option ProjectState) :
    Except AppError (Option Project) × Store :=
  match s.rows.find? (fun r => r.id == project_id) with
  | none => (.ok none, s)
  | some row =>
    let newRow : ProjectRow :=
      { row with
        name := name.getD row.name
        description := match description with
          | some d => some d
          | none => row.description
        state := state.getD row.state }
    if update_violates s project_id newRow.name then
      match name with
      | some n =>
        if n = "" then (.error .IntegrityError, s)
        else (.error (.ProjectNameExistsError n), s)
      | none => (.error .IntegrityError, s)
    else
      (.ok (some (rowToEntity newRow)),
       ⟨s.rows.map (fun r => if r.id == project_id then newRow else r)⟩)

/-- `ProjectDTO` from `use_cases/dto/project.py`. -/
structure ProjectDTO where
  id : String
  name : String
  description : Option String
  state : ProjectState
deriving DecidableEq, Repr

/-- `ProjectUpdateDTO` from `use_cases/dto/project.py`: absent fields are
`None`. -/
structure ProjectUpdateDTO where
  name : Option String := none
  description : Option String := none
  state : Option ProjectState := none
deriving DecidableEq, Repr

/-- `ProjectListResponseDTO` from `use_cases/dto/project.py`. -/
structure ProjectListResponseDTO where
  total : Nat
  skip : Nat
  limit : Nat
  items : List ProjectDTO
deriving DecidableEq, Repr

/-- `ProjectMapper.entity_to_dto` from `use_cases/mappers/project.py`. -/
def ProjectMapper.entity_to_dto (entity : Project) : ProjectDTO :=
  ⟨entity.id, entity.name, entity.description, entity.state⟩

/-- `ProjectMapper.create_list_response` from `use_cases/mappers/project.py`. -/
def ProjectMapper.create_list_response (total skip limit : Nat)
    (entities : List Project) : ProjectListResponseDTO :=
  ⟨total, skip, limit, entities.map ProjectMapper.entity_to_dto⟩

/-- `ProjectService.create_project`: delegate to the repository and map the
entity to a DTO. -/
def ProjectService.create_project (s : Store) (name : String)
    (description : Option String) (state : ProjectState) (newId : String) :
    Except AppError ProjectDTO × Store :=
  match SQLiteProjectRepository.create_project s name description state newId with
  | (.ok p, s') => (.ok (ProjectMapper.entity_to_dto p), s')
  | (.error e, s') => (.error e, s')

/-- `ProjectService.get_project_by_id`: raise `ProjectNotFoundError` when
the repository returns `None`. -/
def ProjectService.get_project_by_id (s : Store) (project_id : String) :
    Except AppError ProjectDTO :=
  match SQLiteProjectRepository.get_project_by_id s project_id with
  | none => .error (.ProjectNotFoundError project_id)
  | some p => .ok (ProjectMapper.entity_to_dto p)

/-- `ProjectService.get_projects`: fetch the page, fetch the count, and
assemble the paged response. -/
def ProjectService.get_projects (s : Store) (skip limit : Nat)
    (state : Option ProjectState) : ProjectListResponseDTO :=
  ProjectMapper.create_list_response
    (SQLiteProjectRepository.count_projects s state) skip limit
    (SQLiteProjectRepository.get_projects s skip limit state)

/-- `ProjectService.update_project`: check existence (raising
`ProjectNotFoundError` if absent), delegate the update, and `assert` that
the repository did not return `None`. -/
def ProjectService.update_project (s : Store) (project_id : String)
    (update_data : ProjectUpdateDTO) : Except AppError ProjectDTO × Store :=
  match SQLiteProjectRepository.get_project_by_id s project_id with
  | none => (.error (.ProjectNotFoundError project_id), s)
  | some _ =>
    match SQLiteProjectRepository.update_project s project_id
        update_data.name update_data.description update_data.state with
    | (.ok none, s') => (.error .AssertionError, s')
    | (.ok (some p), s') => (.ok (ProjectMapper.entity_to_dto p), s')
    | (.error e, s') => (.error e, s')

/-- `ProjectService.delete_project`: check existence (raising
`ProjectNotFoundError` if absent), then delegate and return the flag. -/
def ProjectService.delete_project (s : Store) (project_id : String) :
    Except AppError Bool × Store :=
  match SQLiteProjectRepository.get_project_by_id s project_id with
  | none => (.error (.ProjectNotFoundError project_id), s)
  | some _ =>
    let r := SQLiteProjectRepository.delete_project s project_id
    (.ok r.1, r.2)

/-! ## Concrete stores used by the witnesses and counterexamples -/

/-- A store holding a single project in state `PLANNED`. -/
def demoStorePlanned : Store :=
  ⟨[⟨"p1", "Alpha", none, .PLANNED, defaultCreatedAt⟩]⟩

/-- A store holding a project whose name is the empty string next to an
ordinary project. -/
def emptyNameStore : Store :=
  ⟨[⟨"e1", "", none, .PLANNED, defaultCreatedAt⟩,
    ⟨"e2", "Beta", none, .PLANNED, defaultCreatedAt⟩]⟩

/-! ## Claims -/

/-- Claim C2: `is_valid_state_transition` returns `true` exactly on the six
pairs of the transition table — PLANNED→IN_PROGRESS, PLANNED→CANCELLED,
IN_PROGRESS→COMPLETED, IN_PROGRESS→CANCELLED, COMPLETED→IN_PROGRESS,
CANCELLED→PLANNED — and `false` on every other pair of the four states,
the identity pairs included. -/
theorem C2_transition_table_exact (c n : ProjectState) :
    is_valid_state_transition c n = true ↔
      (c, n) ∈ ([(.PLANNED, .IN_PROGRESS), (.PLANNED, .CANCELLED),
        (.IN_PROGRESS, .COMPLETED), (.IN_PROGRESS, .CANCELLED),
        (.COMPLETED, .IN_PROGRESS), (.CANCELLED, .PLANNED)] :
        List (ProjectState × ProjectState)) := by
  cases c <;> cases n <;> decide

/-- Claim C7: `validate_project_name` accepts a string exactly when its
length lies in the interval [3, 100]. -/
theorem C7_validate_name_iff (s : String) :
    validate_project_name s = true ↔ 3 ≤ s.length ∧ s.length ≤ 100 := by
  simp [validate_project_name, PROJECT_NAME_MIN_LENGTH, PROJECT_NAME_MAX_LENGTH]

/-- Claim C9: under sequential execution, `ProjectService.update_project`
never trips its non-absence `assert`: once the initial existence check has
found the project, the repository update call cannot return `None`, so the
`AssertionError` outcome is unreachable. -/
theorem C9_update_assert_never_fails (s : Store) (project_id : String)
    (update_data : ProjectUpdateDTO) :
    (ProjectService.update_project s project_id update_data).1 ≠
      .error .AssertionError := by
  unfold ProjectService.update_project
  unfold SQLiteProjectRepository.get_project_by_id
  unfold SQLiteProjectRepository.update_project
  cases h : s.rows.find? (fun r => r.id == project_id) with
  | none => simp [h]
  | some row =>
    simp only [h, Option.map_some]
    by_cases hv : update_violates s project_id (update_data.name.getD row.name) = true
    · rw [if_pos hv]
      cases hn : update_data.name with
      | none => simp
      | some n =>
        by_cases hne : n = "" <;> simp [hne]
    · rw [if_neg hv]
      simp

/-- Claim C1 counterexample: the pair (PLANNED, COMPLETED) is not in the
transition table, yet an update requesting COMPLETED on a PLANNED project is
accepted and changes the state — the claim that such an update is rejected
and leaves the project unchanged is false.  Neither the service nor the
repository ever calls `is_valid_state_transition`. -/
theorem C1_counterexample :
    is_valid_state_transition .PLANNED .COMPLETED = false ∧
    ProjectService.update_project demoStorePlanned "p1"
        ⟨none, none, some .COMPLETED⟩ =
      (.ok ⟨"p1", "Alpha", none, .COMPLETED⟩,
       ⟨[⟨"p1", "Alpha", none, .COMPLETED, defaultCreatedAt⟩]⟩) := by
  decide

/-- Claim C1 amended: an update sets the state unconditionally to the
requested value; the transition table is never consulted, so even a
(current, requested) pair outside the table succeeds and mutates the state.
`update` remains the only state-mutating path. -/
theorem C1_amended_state_unrestricted (s : Store) (project_id : String)
    (r : ProjectRow) (st : ProjectState)
    (hfind : s.rows.find? (fun x => x.id == project_id) = some r)
    (hfresh : ∀ x ∈ s.rows, x.id ≠ project_id → x.name ≠ r.name)
    (hbad : is_valid_state_transition r.state st = false) :
    ProjectService.update_project s project_id ⟨none, none, some st⟩ =
      (.ok ⟨r.id, r.name, r.description, st⟩,
       ⟨s.rows.map (fun x =>
          if x.id == project_id then { r with state := st } else x)⟩) := by
  have hv : ¬ (update_violates s project_id r.name = true) := by
    simp only [update_violates, List.any_eq_true, Bool.and_eq_true, bne_iff_ne,
      beq_iff_eq, not_exists]
    rintro x ⟨hx, hne, heq⟩
    exact hfresh x hx hne heq
  unfold ProjectService.update_project SQLiteProjectRepository.get_project_by_id
    SQLiteProjectRepository.update_project
  rw [hfind]
  simp only [Option.map_some, Option.getD_none]
  rw [if_neg hv]
  simp [rowToEntity, ProjectMapper.entity_to_dto]

/-- Claim C1 witness: the amended theorem applied to the concrete PLANNED
project and the table-illegal identity target PLANNED. -/
theorem C1_amended_witness :
    demoStorePlanned.rows.find? (fun x => x.id == "p1") =
        some ⟨"p1", "Alpha", none, .PLANNED, defaultCreatedAt⟩ ∧
    is_valid_state_transition .PLANNED .PLANNED = false ∧
    ProjectService.update_project demoStorePlanned "p1"
        ⟨none, none, some .PLANNED⟩ =
      (.ok ⟨"p1", "Alpha", none, .PLANNED⟩,
       ⟨[⟨"p1", "Alpha", none, .PLANNED, defaultCreatedAt⟩]⟩) :=
  ⟨by decide, by decide,
   (C1_amended_state_unrestricted demoStorePlanned "p1"
      ⟨"p1", "Alpha", none, .PLANNED, defaultCreatedAt⟩ .PLANNED
      (by decide) (by decide) (by decide)).trans (by decide)⟩

/-- The store after creating four projects A, B, C, D in sequence through
the service, starting from an empty store. -/
def storeAfterABCD : Store :=
  (ProjectService.create_project
    ((ProjectService.create_project
      ((ProjectService.create_project
        ((ProjectService.create_project ⟨[]⟩ "Project A" none .PLANNED "ida").2)
        "Project B" none .PLANNED "idb").2)
      "Project C" none .PLANNED "idc").2)
    "Project D" none .PLANNED "idd").2

/-- Claim C3: the scalar column default `created_at=datetime.now(UTC)` is
evaluated once at module load, so every row created in one process run gets
the same `created_at`.  After creating A, B, C, D in sequence, all four
timestamps are equal, hence `ORDER BY created_at DESC` cannot order
newest-first: the stable full-scan sort leaves the rows in insertion order
and page (skip=0, limit=2) returns [A, B], not [D, C] as the specification
demands.  The `total=4` metadata and the `items`-length bound do hold. -/
theorem C3_created_at_constant_breaks_newest_first :
    (∀ r ∈ storeAfterABCD.rows, r.created_at = defaultCreatedAt) ∧
    (ProjectService.get_projects storeAfterABCD 0 2 none).total = 4 ∧
    (ProjectService.get_projects storeAfterABCD 0 2 none).items.length ≤ 2 ∧
    (ProjectService.get_projects storeAfterABCD 0 2 none).items.map
        ProjectDTO.name = ["Project A", "Project B"] := by
  decide

/-- Claim C6 counterexample: a create supplying the length-2 name "ab" is
not rejected — it succeeds and stores the project; no code path invokes
`validate_project_name` or otherwise enforces the [3, 100] length bound. -/
theorem C6_counterexample :
    "ab".length = 2 ∧ validate_project_name "ab" = false ∧
    ProjectService.create_project ⟨[]⟩ "ab" none .PLANNED "id1" =
      (.ok ⟨"id1", "ab", none, .PLANNED⟩,
       ⟨[⟨"id1", "ab", none, .PLANNED, defaultCreatedAt⟩]⟩) := by
  decide

/-- Claim C6 amended: the name length bound is not enforced anywhere in the
create or update paths: for every name — of any length whatsoever — a create
with a fresh id and unused name succeeds, and an update of an existing
project to an unused name succeeds; `validate_project_name` is never
invoked. -/
theorem C6_amended_no_length_enforcement (s : Store) (name : String)
    (d : Option String) (st : ProjectState) (newId project_id : String)
    (r : ProjectRow)
    (hfresh : ∀ x ∈ s.rows, x.name ≠ name ∧ x.id ≠ newId)
    (hfind : s.rows.find? (fun x => x.id == project_id) = some r) :
    (ProjectService.create_project s name d st newId).1 =
      .ok ⟨newId, name, d, st⟩ ∧
    (ProjectService.update_project s project_id ⟨some name, none, none⟩).1 =
      .ok ⟨r.id, name, r.description, r.state⟩ := by
  have hc : ¬ (create_violates s newId name = true) := by
    simp only [create_violates, List.any_eq_true, Bool.or_eq_true, beq_iff_eq,
      not_exists]
    rintro x ⟨hx, hor⟩
    rcases hor with h | h
    · exact (hfresh x hx).1 h
    · exact (hfresh x hx).2 h
  have hu : ¬ (update_violates s project_id name = true) := by
    simp only [update_violates, List.any_eq_true, Bool.and_eq_true, bne_iff_ne,
      beq_iff_eq, not_exists]
    rintro x ⟨hx, _, heq⟩
    exact (hfresh x hx).1 heq
  constructor
  · unfold ProjectService.create_project SQLiteProjectRepository.create_project
    rw [if_neg hc]
    simp [rowToEntity, ProjectMapper.entity_to_dto]
  · unfold ProjectService.update_project
      SQLiteProjectRepository.get_project_by_id
      SQLiteProjectRepository.update_project
    rw [hfind]
    simp only [Option.map_some, Option.getD_some]
    rw [if_neg hu]
    simp [rowToEntity, ProjectMapper.entity_to_dto]

/-- Claim C6 witness: the amended theorem applied to a concrete store and
the invalid-length name "xy" (length 2): both the create and the update are
accepted. -/
theorem C6_amended_witness :
    validate_project_name "xy" = false ∧
    (ProjectService.create_project demoStorePlanned "xy" none .PLANNED
        "id2").1 = .ok ⟨"id2", "xy", none, .PLANNED⟩ ∧
    (ProjectService.update_project demoStorePlanned "p1"
        ⟨some "xy", none, none⟩).1 = .ok ⟨"p1", "xy", none, .PLANNED⟩ :=
  ⟨by decide,
   (C6_amended_no_length_enforcement demoStorePlanned "xy" none .PLANNED
      "id2" "p1" ⟨"p1", "Alpha", none, .PLANNED, defaultCreatedAt⟩
      (by decide) (by decide)).1,
   (C6_amended_no_length_enforcement demoStorePlanned "xy" none .PLANNED
      "id2" "p1" ⟨"p1", "Alpha", none, .PLANNED, defaultCreatedAt⟩
      (by decide) (by decide)).2⟩

/-- Claim C8 counterexample: updating project "e2" to the empty name while
another project already holds the empty name hits the unique constraint, but
because `if name:` is falsy for the empty string the repository re-raises
the raw `IntegrityError` instead of the domain name-conflict error — so
"updating a project to a name already used by another project raises the
name-conflict error" is false as stated. -/
theorem C8_counterexample :
    (∃ x ∈ emptyNameStore.rows, x.id ≠ "e2" ∧ x.name = "") ∧
    ProjectService.update_project emptyNameStore "e2" ⟨some "", none, none⟩ =
      (.error .IntegrityError, emptyNameStore) ∧
    AppError.IntegrityError ≠ AppError.ProjectNameExistsError "" := by
  refine ⟨⟨⟨"e1", "", none, .PLANNED, defaultCreatedAt⟩, by decide, by decide,
    rfl⟩, by decide, by decide⟩

/-- Claim C8 amended: creating a project with an already-used name raises
the name-conflict error and adds no row; updating a project to a non-empty
name already used by another project raises the name-conflict error and
leaves the store unchanged (an empty-name collision instead re-raises the
raw integrity error — see C10); in both error cases the store is unchanged,
so it still holds at most one project per name. -/
theorem C8_amended_name_conflict (s : Store) (nm n : String)
    (d : Option String) (st : ProjectState) (newId project_id : String)
    (r : ProjectRow) (d2 : Option String) (st2 : Option ProjectState)
    (hdup : ∃ x ∈ s.rows, x.name = nm)
    (hfind : s.rows.find? (fun x => x.id == project_id) = some r)
    (hne : n ≠ "")
    (hother : ∃ x ∈ s.rows, x.id ≠ project_id ∧ x.name = n)
    (hnames : (s.rows.map ProjectRow.name).Nodup) :
    ProjectService.create_project s nm d st newId =
      (.error (.ProjectNameExistsError nm), s) ∧
    ProjectService.update_project s project_id ⟨some n, d2, st2⟩ =
      (.error (.ProjectNameExistsError n), s) ∧
    ((ProjectService.create_project s nm d st newId).2.rows.map
        ProjectRow.name).Nodup ∧
    ((ProjectService.update_project s project_id
        ⟨some n, d2, st2⟩).2.rows.map ProjectRow.name).Nodup := by
  have hc : create_violates s newId nm = true := by
    simp only [create_violates, List.any_eq_true, Bool.or_eq_true, beq_iff_eq]
    obtain ⟨x, hx, hxn⟩ := hdup
    exact ⟨x, hx, Or.inl hxn⟩
  have hu : update_violates s project_id n = true := by
    simp only [update_violates, List.any_eq_true, Bool.and_eq_true, bne_iff_ne,
      beq_iff_eq]
    obtain ⟨x, hx, hxi, hxn⟩ := hother
    exact ⟨x, hx, hxi, hxn⟩
  have h1 : ProjectService.create_project s nm d st newId =
      (.error (.ProjectNameExistsError nm), s) := by
    unfold ProjectService.create_project SQLiteProjectRepository.create_project
    rw [if_pos hc]
  have h2 : ProjectService.update_project s project_id ⟨some n, d2, st2⟩ =
      (.error (.ProjectNameExistsError n), s) := by
    unfold ProjectService.update_project
      SQLiteProjectRepository.get_project_by_id
      SQLiteProjectRepository.update_project
    rw [hfind]
    simp only [Option.map_some, Option.getD_some]
    rw [if_pos hu, if_neg hne]
    simp
  exact ⟨h1, h2, by rw [h1]; exact hnames, by rw [h2]; exact hnames⟩

/-- Claim C8 witness: the amended theorem at a concrete store containing
"Alpha": a duplicate-name create and an update of "e2" to the occupied
non-empty name "Alpha" both yield the domain name-conflict error, leaving
the store — whose names are pairwise distinct — unchanged. -/
theorem C8_amended_witness :
    ProjectService.create_project emptyNameStore "Beta" none .PLANNED "id9" =
      (.error (.ProjectNameExistsError "Beta"), emptyNameStore) ∧
    ProjectService.update_project emptyNameStore "e1" ⟨some "Beta", none, none⟩ =
      (.error (.ProjectNameExistsError "Beta"), emptyNameStore) := by
  have h := C8_amended_name_conflict emptyNameStore "Beta" "Beta" none .PLANNED
    "id9" "e1" ⟨"e1", "", none, .PLANNED, defaultCreatedAt⟩ none none
    ⟨⟨"e2", "Beta", none, .PLANNED, defaultCreatedAt⟩, by decide, by decide⟩
    (by decide) (by decide)
    ⟨⟨"e2", "Beta", none, .PLANNED, defaultCreatedAt⟩, by decide, by decide,
      by decide⟩
    (by decide)
  exact ⟨h.1, h.2.1⟩

/-- Claim C10: when the commit of a repository update hits an integrity
violation, the domain name-conflict error is raised only when a truthy name
argument was supplied; for an absent (`None`) or empty-string name the raw
store `IntegrityError` is re-raised unchanged. -/
theorem C10_integrity_error_translation (s : Store) (project_id : String)
    (nm : Option String) (d : Option String) (stOpt : Option ProjectState)
    (r : ProjectRow)
    (hfind : s.rows.find? (fun x => x.id == project_id) = some r)
    (hviol : update_violates s project_id (nm.getD r.name) = true) :
    ((nm = none ∨ nm = some "") →
      SQLiteProjectRepository.update_project s project_id nm d stOpt =
        (.error .IntegrityError, s)) ∧
    (∀ n, nm = some n → n ≠ "" →
      SQLiteProjectRepository.update_project s project_id nm d stOpt =
        (.error (.ProjectNameExistsError n), s)) := by
  unfold SQLiteProjectRepository.update_project
  rw [hfind]
  constructor
  · rintro (h | h) <;> subst h
    · simp only [Option.getD_none] at hviol ⊢
      rw [if_pos hviol]
    · simp only [Option.getD_some] at hviol ⊢
      rw [if_pos hviol]
      simp
  · rintro n rfl hne
    simp only [Option.getD_some] at hviol ⊢
    rw [if_pos hviol, if_neg hne]

/-- Claim C10 witness: the theorem applied to the empty-name collision in
`emptyNameStore`: the update of "e2" with the falsy name `""` re-raises the
raw `IntegrityError`. -/
theorem C10_witness :
    update_violates emptyNameStore "e2" "" = true ∧
    SQLiteProjectRepository.update_project emptyNameStore "e2" (some "")
        none none = (.error .IntegrityError, emptyNameStore) :=
  ⟨by decide,
   (C10_integrity_error_translation emptyNameStore "e2" (some "") none none
      ⟨"e2", "Beta", none, .PLANNED, defaultCreatedAt⟩ (by decide)
      (by decide)).1 (Or.inr rfl)⟩

/-- Claim C4: partial-field (frame) semantics of update.  For every
existing project and every successful update call, each field whose value is
absent (`None`) keeps exactly its previous value, each provided field takes
the new value, and no update ever changes an id — neither the returned
record's id nor the ids of the stored rows. -/
theorem C4_partial_update_frame (s : Store) (project_id : String)
    (r : ProjectRow) (upd : ProjectUpdateDTO) (p : ProjectDTO) (s' : Store)
    (hfind : s.rows.find? (fun x => x.id == project_id) = some r)
    (hok : ProjectService.update_project s project_id upd = (.ok p, s')) :
    p.id = r.id ∧
    (upd.name = none → p.name = r.name) ∧
    (upd.description = none → p.description = r.description) ∧
    (upd.state = none → p.state = r.state) ∧
    (∀ v, upd.name = some v → p.name = v) ∧
    (∀ v, upd.description = some v → p.description = some v) ∧
    (∀ v, upd.state = some v → p.state = v) ∧
    s'.rows.map ProjectRow.id = s.rows.map ProjectRow.id := by
  have hrid : r.id = project_id := by
    have := List.find?_some hfind
    simpa using this
  unfold ProjectService.update_project SQLiteProjectRepository.get_project_by_id
    SQLiteProjectRepository.update_project at hok
  rw [hfind] at hok
  simp only [Option.map_some'] at hok
  by_cases hv : update_violates s project_id (upd.name.getD r.name) = true
  · rw [if_pos hv] at hok
    cases hn : upd.name with
    | none => rw [hn] at hok; simp at hok
    | some m =>
      rw [hn] at hok
      by_cases hm : m = "" <;> simp [hm] at hok
  · rw [if_neg hv] at hok
    simp only [ProjectMapper.entity_to_dto, rowToEntity, Prod.mk.injEq,
      Except.ok.injEq] at hok
    obtain ⟨hp, hs⟩ := hok
    subst hp
    subst hs
    refine ⟨rfl, ?_, ?_, ?_, ?_, ?_, ?_, ?_⟩
    · intro h; simp [ProjectMapper.entity_to_dto, rowToEntity, h]
    · intro h; simp [ProjectMapper.entity_to_dto, rowToEntity, h]
    · intro h; simp [ProjectMapper.entity_to_dto, rowToEntity, h]
    · intro v h; simp [ProjectMapper.entity_to_dto, rowToEntity, h]
    · intro v h; simp [ProjectMapper.entity_to_dto, rowToEntity, h]
    · intro v h; simp [ProjectMapper.entity_to_dto, rowToEntity, h]
    · rw [List.map_map]
      refine List.map_congr_left ?_
      intro x hx
      simp only [Function.comp_apply]
      by_cases hxid : (x.id == project_id) = true
      · rw [if_pos hxid]
        have hx' : x.id = project_id := by simpa using hxid
        simp [hx', hrid]
      · rw [if_neg hxid]

/-- Claim C4 witness: updating only `description` on the concrete store
changes only the description and keeps the name, the state and the id. -/
theorem C4_partial_update_witness :
    demoStorePlanned.rows.find? (fun x => x.id == "p1") =
        some ⟨"p1", "Alpha", none, .PLANNED, defaultCreatedAt⟩ ∧
    ProjectService.update_project demoStorePlanned "p1"
        ⟨none, some "Doc", none⟩ =
      (.ok ⟨"p1", "Alpha", some "Doc", .PLANNED⟩,
       ⟨[⟨"p1", "Alpha", some "Doc", .PLANNED, defaultCreatedAt⟩]⟩) ∧
    (⟨"p1", "Alpha", some "Doc", .PLANNED⟩ : ProjectDTO).name = "Alpha" ∧
    (⟨"p1", "Alpha", some "Doc", .PLANNED⟩ : ProjectDTO).state = .PLANNED ∧
    (⟨"p1", "Alpha", some "Doc", .PLANNED⟩ : ProjectDTO).id = "p1" :=
  ⟨by decide, by decide,
   (C4_partial_update_frame demoStorePlanned "p1"
      ⟨"p1", "Alpha", none, .PLANNED, defaultCreatedAt⟩ ⟨none, some "Doc", none⟩
      ⟨"p1", "Alpha", some "Doc", .PLANNED⟩
      ⟨[⟨"p1", "Alpha", some "Doc", .PLANNED, defaultCreatedAt⟩]⟩
      (by decide) (by decide)).2.1 rfl,
   (C4_partial_update_frame demoStorePlanned "p1"
      ⟨"p1", "Alpha", none, .PLANNED, defaultCreatedAt⟩ ⟨none, some "Doc", none⟩
      ⟨"p1", "Alpha", some "Doc", .PLANNED⟩
      ⟨[⟨"p1", "Alpha", some "Doc", .PLANNED, defaultCreatedAt⟩]⟩
      (by decide) (by decide)).2.2.2.1 rfl,
   (C4_partial_update_frame demoStorePlanned "p1"
      ⟨"p1", "Alpha", none, .PLANNED, defaultCreatedAt⟩ ⟨none, some "Doc", none⟩
      ⟨"p1", "Alpha", some "Doc", .PLANNED⟩
      ⟨[⟨"p1", "Alpha", some "Doc", .PLANNED, defaultCreatedAt⟩]⟩
      (by decide) (by decide)).1⟩

/-- After deleting the first row with a given id from a table whose ids are
pairwise distinct, no row with that id remains. -/
theorem find_after_eraseFirstRow (rows : List ProjectRow) (pid : String)
    (hids : (rows.map ProjectRow.id).Nodup) :
    (eraseFirstRow pid rows).find? (fun x => x.id == pid) = none := by
  induction rows with
  | nil => rfl
  | cons h t ih =>
    simp only [List.map_cons, List.nodup_cons] at hids
    obtain ⟨hnot, ht⟩ := hids
    unfold eraseFirstRow
    by_cases hh : (h.id == pid) = true
    · rw [if_pos hh]
      rw [List.find?_eq_none]
      intro x hx
      simp only [beq_iff_eq]
      intro hxid
      have hhid : h.id = pid := by simpa using hh
      exact hnot (by rw [hhid, ← hxid]; exact List.mem_map_of_mem ProjectRow.id hx)
    · rw [if_neg hh]
      have hstep : List.find? (fun x => x.id == pid) (h :: eraseFirstRow pid t) =
          List.find? (fun x => x.id == pid) (eraseFirstRow pid t) :=
        List.find?_cons_of_neg _ hh
      rw [hstep]
      exact ih ht

/-- Claim C5: for an id absent from the store, `getProjectById`,
`updateProject` and `deleteProject` all raise the not-found error carrying
that id and leave the store unchanged; for an existing id, `getProjectById`
returns a record whose fields match the stored row, `deleteProject` returns
`true` and removes the row, and an immediate second delete of the same id
raises not-found on the unchanged remaining store. -/
theorem C5_not_found_and_delete_twice (s1 s2 : Store) (id1 id2 : String)
    (upd : ProjectUpdateDTO) (r : ProjectRow)
    (habs : SQLiteProjectRepository.get_project_by_id s1 id1 = none)
    (hfind : s2.rows.find? (fun x => x.id == id2) = some r)
    (hids : (s2.rows.map ProjectRow.id).Nodup) :
    ProjectService.get_project_by_id s1 id1 =
      .error (.ProjectNotFoundError id1) ∧
    ProjectService.update_project s1 id1 upd =
      (.error (.ProjectNotFoundError id1), s1) ∧
    ProjectService.delete_project s1 id1 =
      (.error (.ProjectNotFoundError id1), s1) ∧
    ProjectService.get_project_by_id s2 id2 =
      .ok ⟨r.id, r.name, r.description, r.state⟩ ∧
    ProjectService.delete_project s2 id2 =
      (.ok true, ⟨eraseFirstRow id2 s2.rows⟩) ∧
    ProjectService.delete_project (⟨eraseFirstRow id2 s2.rows⟩ : Store) id2 =
      (.error (.ProjectNotFoundError id2), ⟨eraseFirstRow id2 s2.rows⟩) := by
  have herase := find_after_eraseFirstRow s2.rows id2 hids
  refine ⟨?_, ?_, ?_, ?_, ?_, ?_⟩
  · unfold ProjectService.get_project_by_id
    rw [habs]
  · unfold ProjectService.update_project
    rw [habs]
  · unfold ProjectService.delete_project
    rw [habs]
  · unfold ProjectService.get_project_by_id
      SQLiteProjectRepository.get_project_by_id
    rw [hfind]
    simp [rowToEntity, ProjectMapper.entity_to_dto]
  · unfold ProjectService.delete_project
      SQLiteProjectRepository.get_project_by_id
      SQLiteProjectRepository.delete_project
    rw [hfind]
    simp
  · unfold ProjectService.delete_project
      SQLiteProjectRepository.get_project_by_id
      SQLiteProjectRepository.delete_project
    simp only [herase]
    simp

/-- Claim C5 witness: the theorem at the empty store (for the absent id
"zz") and at the one-project store (for the present id "p1"): delete returns
`true` once and not-found immediately afterwards. -/
theorem C5_witness :
    ProjectService.get_project_by_id (⟨[]⟩ : Store) "zz" =
      .error (.ProjectNotFoundError "zz") ∧
    ProjectService.delete_project demoStorePlanned "p1" =
      (.ok true, (⟨[]⟩ : Store)) ∧
    ProjectService.delete_project (⟨[]⟩ : Store) "p1" =
      (.error (.ProjectNotFoundError "p1"), (⟨[]⟩ : Store)) := by
  have h := C5_not_found_and_delete_twice (⟨[]⟩ : Store) demoStorePlanned
    "zz" "p1" ⟨none, none, none⟩ ⟨"p1", "Alpha", none, .PLANNED, defaultCreatedAt⟩
    (by decide) (by decide) (by decide)
  exact ⟨h.1, h.2.2.2.2.1, h.2.2.2.2.2⟩

end CleanArch
